import Mathlib

/-!
Verification development for the PAI sandbox execution server
(`sandbox/entrypoint.py`).

The development is a shallow embedding of the two components of the
program:

* `execute_code` — the execution engine (stage, launch, supervise,
  collect output files, cleanup), and
* `do_POST` — the HTTP request gateway for `POST /run`.

Interactions with the operating system (temporary-directory creation,
process launch, the wall-clock timeout race, the contents of the output
directory, failures of individual system calls) are modelled by an
explicit `World` value describing the outcome of each interaction, and
`execute_code` is a pure function of its arguments and the `World`.
Python exceptions are modelled with `Except`: a value `Except.error e`
means the corresponding Python code raised `e` and the exception
propagated out of the function.  Side effects that the claims are about
(whether `shutil.rmtree` ran, which command and environment were passed
to `Popen`, which kill calls were made) are recorded in the returned
`ExecOutcome`.

Byte strings are `List Nat` (each element a byte value), and decoded
text is `List Nat` (each element a Unicode code point), so that
`bytes.decode("utf-8", errors="replace")` and Python's slicing of the
decoded string can be modelled exactly.
-/

/-- `MAX_TIMEOUT = 120` from the source. -/
def MAX_TIMEOUT : Int := 120

/-- `DEFAULT_TIMEOUT = 30` from the source. -/
def DEFAULT_TIMEOUT : Int := 30

/-- `MAX_OUTPUT_BYTES = 100 * 1024` from the source. -/
def MAX_OUTPUT_BYTES : Nat := 100 * 1024

/-- `MAX_CODE_BYTES = 512 * 1024` from the source. -/
def MAX_CODE_BYTES : Nat := 512 * 1024

/-- `OUTPUT_DIR_NAME = "output"` from the source. -/
def OUTPUT_DIR_NAME : String := "output"

/-- The `SAFE_ENV` dictionary from the source, as an association list. -/
def SAFE_ENV : List (String × String) :=
  [("PATH", "/usr/local/bin:/usr/bin:/bin"),
   ("HOME", "/tmp"),
   ("LANG", "C.UTF-8"),
   ("PYTHONUNBUFFERED", "1"),
   ("MPLBACKEND", "Agg")]

/-- A Python exception value.  Only the class and the message (what
`str(e)` returns) are modelled. -/
inductive PyExn where
  | attributeError (msg : String)
  | typeError (msg : String)
  | valueError (msg : String)
  | osError (msg : String)
  | timeoutExpired (msg : String)
deriving DecidableEq, Repr

/-- The message of an exception, i.e. Python's `str(e)`. -/
def pyExnStr : PyExn → String
  | .attributeError m => m
  | .typeError m => m
  | .valueError m => m
  | .osError m => m
  | .timeoutExpired m => m

/-- A Python value as produced by `json.loads`.  List elements are not
modelled (no claim depends on them); nested dictionaries appearing as
values are likewise collapsed.  This mirrors exactly the distinctions
`do_POST` can observe: string, int, bool, `None`, list, dict. -/
inductive PyVal where
  | vstr (s : String)
  | vint (n : Int)
  | vbool (b : Bool)
  | vnone
  | vlist
  | vdict (fields : List (String × PyVal))

/-- Python `body.get(k, d)` on a dict modelled as an association list
(keys of a Python dict are unique, so first-match lookup is exact). -/
def dictGet (fields : List (String × PyVal)) (k : String) (d : PyVal) : PyVal :=
  match fields.lookup k with
  | some v => v
  | none => d

/-- Calling `.get` on the result of `json.loads`: only a dict has the
attribute; any other value raises `AttributeError` (source line 84). -/
def asDict : PyVal → Except PyExn (List (String × PyVal))
  | .vdict fields => .ok fields
  | _ => .error (.attributeError "object has no attribute get")

/-- Calling `.strip()` (source line 92): only a string value has the
attribute; any other value raises `AttributeError`. -/
def asStr : PyVal → Except PyExn String
  | .vstr s => .ok s
  | _ => .error (.attributeError "object has no attribute strip")

/-- Code points that Python's `str.isspace` (and hence `str.strip` and
the whitespace stripping of `int()`) treats as whitespace. -/
def isPySpace (c : Nat) : Bool :=
  (9 ≤ c && c ≤ 13) || (28 ≤ c && c ≤ 31) || c == 32 || c == 133 || c == 160 ||
  c == 5760 || (8192 ≤ c && c ≤ 8202) || c == 8232 || c == 8233 ||
  c == 8239 || c == 8287 || c == 12288

/-- Python `str.lstrip()` on a list of code points. -/
def lstripCp (l : List Nat) : List Nat := l.dropWhile isPySpace

/-- Python `str.rstrip()` on a list of code points. -/
def rstripCp (l : List Nat) : List Nat := (l.reverse.dropWhile isPySpace).reverse

/-- Python `str.strip()` on a list of code points. -/
def pyStrip (l : List Nat) : List Nat := rstripCp (lstripCp l)

/-- The code points of a Lean string literal. -/
def strCodes (s : String) : List Nat := s.data.map Char.toNat

/-- Accumulator for parsing a run of decimal digits (code points). -/
def digitsValAux (acc : Nat) : List Nat → Option Nat
  | [] => some acc
  | d :: rest => if 48 ≤ d ∧ d ≤ 57 then digitsValAux (acc * 10 + (d - 48)) rest else none

/-- Value of a nonempty run of decimal digits, `none` otherwise. -/
def digitsVal (l : List Nat) : Option Nat :=
  match l with
  | [] => none
  | _ => digitsValAux 0 l

/-- Python `int(s)` for a string argument: surrounding whitespace is
stripped, an optional sign is followed by decimal digits.  (Underscore
digit separators and non-ASCII digits accepted by CPython are not
modelled; no claim involves them.) -/
def pyIntOfString (s : String) : Option Int :=
  match rstripCp (lstripCp (strCodes s)) with
  | 45 :: rest => (digitsVal rest).map (fun n => -(n : Int))
  | 43 :: rest => (digitsVal rest).map (fun n => (n : Int))
  | rest => (digitsVal rest).map (fun n => (n : Int))

/-- Python `int(v)` (source line 86): exact on ints and bools, parses
strings, raises `TypeError` on `None`, lists and dicts. -/
def pyInt : PyVal → Except PyExn Int
  | .vint n => .ok n
  | .vbool b => .ok (if b then 1 else 0)
  | .vstr s =>
    match pyIntOfString s with
    | some n => .ok n
    | none => .error (.valueError ("invalid literal for int with base 10: " ++ s))
  | .vnone => .error (.typeError "int argument must be a string or a real number, not NoneType")
  | .vlist => .error (.typeError "int argument must be a string or a real number, not list")
  | .vdict _ => .error (.typeError "int argument must be a string or a real number, not dict")

/-- Python `str(v)` as used by the f-string on source line 89.  The
renderings of lists and nested dicts are approximations (no claim
depends on them). -/
def pyStr : PyVal → String
  | .vstr s => s
  | .vint n => toString n
  | .vbool b => if b then "True" else "False"
  | .vnone => "None"
  | .vlist => "[...]"
  | .vdict _ => "dict"

/-- The membership test `language in ("python", "node")` from source
line 88.  A non-string Python value is unequal to both strings. -/
def isSupportedLang : PyVal → Bool
  | .vstr s => s == "python" || s == "node"
  | _ => false

/-- Python `bytes.decode("utf-8", errors="replace")`: bytes to code
points, replacing each maximal invalid subsequence with U+FFFD (65533)
the way CPython does.  Valid sequences follow RFC 3629: two-byte
sequences start at 0xC2 (overlong encodings rejected), `0xE0`/`0xED`
restrict their second byte to exclude overlong forms and surrogates,
`0xF0`/`0xF4` restrict their second byte to the range U+10000..U+10FFFF. -/
def utf8DecodeReplace : List Nat → List Nat
  | [] => []
  | b1 :: t1 =>
    if b1 < 128 then b1 :: utf8DecodeReplace t1
    else if b1 < 194 then 65533 :: utf8DecodeReplace t1
    else if b1 ≤ 223 then
      match t1 with
      | [] => [65533]
      | b2 :: t2 =>
        if 128 ≤ b2 ∧ b2 ≤ 191 then
          ((b1 - 192) * 64 + (b2 - 128)) :: utf8DecodeReplace t2
        else 65533 :: utf8DecodeReplace (b2 :: t2)
    else if b1 ≤ 239 then
      match t1 with
      | [] => [65533]
      | b2 :: t2 =>
        if (if b1 = 224 then 160 ≤ b2 ∧ b2 ≤ 191
            else if b1 = 237 then 128 ≤ b2 ∧ b2 ≤ 159
            else 128 ≤ b2 ∧ b2 ≤ 191) then
          match t2 with
          | [] => [65533]
          | b3 :: t3 =>
            if 128 ≤ b3 ∧ b3 ≤ 191 then
              ((b1 - 224) * 4096 + (b2 - 128) * 64 + (b3 - 128)) :: utf8DecodeReplace t3
            else 65533 :: utf8DecodeReplace (b3 :: t3)
        else 65533 :: utf8DecodeReplace (b2 :: t2)
    else if b1 ≤ 244 then
      match t1 with
      | [] => [65533]
      | b2 :: t2 =>
        if (if b1 = 240 then 144 ≤ b2 ∧ b2 ≤ 191
            else if b1 = 244 then 128 ≤ b2 ∧ b2 ≤ 143
            else 128 ≤ b2 ∧ b2 ≤ 191) then
          match t2 with
          | [] => [65533]
          | b3 :: t3 =>
            if 128 ≤ b3 ∧ b3 ≤ 191 then
              match t3 with
              | [] => [65533]
              | b4 :: t4 =>
                if 128 ≤ b4 ∧ b4 ≤ 191 then
                  ((b1 - 240) * 262144 + (b2 - 128) * 4096 + (b3 - 128) * 64 + (b4 - 128)) ::
                    utf8DecodeReplace t4
                else 65533 :: utf8DecodeReplace (b4 :: t4)
            else 65533 :: utf8DecodeReplace (b3 :: t3)
        else 65533 :: utf8DecodeReplace (b2 :: t2)
    else 65533 :: utf8DecodeReplace t1
termination_by l => l.length
decreasing_by all_goals simp [List.length] <;> omega

/-- Decode then slice, as in `raw.decode("utf-8", errors="replace")[:MAX_OUTPUT_BYTES]`
(source lines 150-151 and 161-162).  Note the slice counts code points
of the decoded text, not bytes. -/
def truncDecode (raw : List Nat) : List Nat :=
  (utf8DecodeReplace raw).take MAX_OUTPUT_BYTES

/-- The base64 alphabet. -/
def b64Alphabet : List Char :=
  "ABCDEFGHIJKLMNOPQRSTUVWXYZabcdefghijklmnopqrstuvwxyz0123456789+/".data

/-- The padding character of base64. -/
def b64Pad : Char := Char.ofNat 61

/-- The alphabet character for a sextet. -/
def b64CharOf (n : Nat) : Char := b64Alphabet.getD n (Char.ofNat 65)

/-- The sextet of an alphabet character, `none` for characters outside
the alphabet (in particular for the padding character). -/
def b64Val (c : Char) : Option Nat := b64Alphabet.findIdx? (fun x => x == c)

/-- `base64.b64encode` on a byte list (source line 178), producing the
character list of the encoded ASCII string. -/
def b64encodeList : List Nat → List Char
  | b1 :: b2 :: b3 :: rest =>
    b64CharOf (b1 / 4) :: b64CharOf ((b1 % 4) * 16 + b2 / 16) ::
      b64CharOf ((b2 % 16) * 4 + b3 / 64) :: b64CharOf (b3 % 64) :: b64encodeList rest
  | [b1, b2] => [b64CharOf (b1 / 4), b64CharOf ((b1 % 4) * 16 + b2 / 16), b64CharOf ((b2 % 16) * 4), b64Pad]
  | [b1] => [b64CharOf (b1 / 4), b64CharOf ((b1 % 4) * 16), b64Pad, b64Pad]
  | [] => []

/-- `base64.b64encode(...).decode("ascii")`, the `data` field of a
collected file. -/
def b64encode (l : List Nat) : String := String.mk (b64encodeList l)

/-- Standard base64 decoding (the inverse used to state the round-trip
property of the `data` field): strict, requiring canonical padding. -/
def b64decodeList : List Char → Option (List Nat)
  | [] => some []
  | c1 :: c2 :: c3 :: c4 :: rest =>
    match b64Val c1, b64Val c2 with
    | some s1, some s2 =>
      if c3 = b64Pad then
        if c4 = b64Pad ∧ rest = [] ∧ s2 % 16 = 0 then some [s1 * 4 + s2 / 16] else none
      else
        match b64Val c3 with
        | some s3 =>
          if c4 = b64Pad then
            if rest = [] ∧ s3 % 4 = 0 then
              some [s1 * 4 + s2 / 16, (s2 % 16) * 16 + s3 / 4]
            else none
          else
            match b64Val c4 with
            | some s4 =>
              match b64decodeList rest with
              | some tl =>
                some ((s1 * 4 + s2 / 16) :: ((s2 % 16) * 16 + s3 / 4) :: ((s3 % 4) * 64 + s4) :: tl)
              | none => none
            | none => none
        | none => none
    | _, _ => none
  | _ => none

/-- Base64 decoding of a string. -/
def b64decode (s : String) : Option (List Nat) := b64decodeList s.data

/-- One immediate child of the output directory as seen by the
collection loop (source lines 174-179): its name from `os.listdir`, the
result of `os.path.isfile`, its `os.path.getsize`, and the bytes
delivered by `open(...).read()` — `none` meaning that opening or
reading the entry raised an `OSError` (for example an unreadable
file). -/
structure Entry where
  name : String
  isfile : Bool
  size : Nat
  content : Option (List Nat)
deriving DecidableEq, Repr

/-- The size guard of source line 176: a regular file strictly smaller
than `5 * 1024 * 1024` bytes. -/
def passF (e : Entry) : Bool := e.isfile && decide (e.size < 5 * 1024 * 1024)

/-- Lexicographic (code-point) comparison of strings as lists of code
points: exactly the order Python's `sorted` uses on `str`. -/
def lexLeB : List Nat → List Nat → Bool
  | [], _ => true
  | _ :: _, [] => false
  | a :: xs, b :: ys => if a < b then true else if b < a then false else lexLeB xs ys

theorem lexLeB_total (x y : List Nat) : lexLeB x y = true ∨ lexLeB y x = true := by
  induction x generalizing y with
  | nil => left; rfl
  | cons a xs ih =>
    cases y with
    | nil => right; rfl
    | cons b ys =>
      by_cases hab : a < b
      · left; simp [lexLeB, hab]
      · by_cases hba : b < a
        · right; simp [lexLeB, hba]
        · have heq : a = b := by omega
          subst heq
          rcases ih ys with h | h
          · left; simp [lexLeB, h]
          · right; simp [lexLeB, h]

theorem lexLeB_trans (x : List Nat) : ∀ y z : List Nat,
    lexLeB x y = true → lexLeB y z = true → lexLeB x z = true := by
  induction x with
  | nil => intro y z _ _; rfl
  | cons a xs ih =>
    intro y z h1 h2
    cases y with
    | nil => simp [lexLeB] at h1
    | cons b ys =>
      cases z with
      | nil => simp [lexLeB] at h2
      | cons c zs =>
        simp only [lexLeB] at h1 h2 ⊢
        by_cases hac : a < c
        · simp [hac]
        · rw [if_neg hac]
          by_cases hab : a < b
          · rw [if_pos hab] at h1
            by_cases hbc : b < c
            · exact absurd (Nat.lt_trans hab hbc) hac
            · rw [if_neg hbc] at h2
              by_cases hcb : c < b
              · rw [if_pos hcb] at h2; simp at h2
              · exact absurd (show a < c by omega) hac
          · rw [if_neg hab] at h1
            by_cases hba : b < a
            · rw [if_pos hba] at h1; simp at h1
            · rw [if_neg hba] at h1
              have hab' : a = b := by omega
              subst hab'
              by_cases hbc : a < c
              · exact absurd hbc hac
              · rw [if_neg hbc] at h2
                by_cases hcb : c < a
                · rw [if_pos hcb] at h2; simp at h2
                · rw [if_neg hcb] at h2
                  rw [if_neg (show ¬ c < a by omega)]
                  exact ih ys zs h1 h2

/-- The entry order used to model `sorted(os.listdir(...))`. -/
def entLe (a b : Entry) : Prop := lexLeB (strCodes a.name) (strCodes b.name) = true

instance : DecidableRel entLe :=
  fun a b => (inferInstance : Decidable (lexLeB (strCodes a.name) (strCodes b.name) = true))

instance : IsTotal Entry entLe :=
  ⟨fun a b => lexLeB_total (strCodes a.name) (strCodes b.name)⟩

instance : IsTrans Entry entLe :=
  ⟨fun _ b _ hab hbc => lexLeB_trans _ (strCodes b.name) _ hab hbc⟩

/-- The model of `sorted(os.listdir(output_dir))` (source line 174).
Both Python's sort and insertion sort are stable, and directory names
are distinct, so the results agree elementwise. -/
def sortByName (l : List Entry) : List Entry :=
  List.insertionSort entLe l

/-- One element of the result's `files` list (source line 179). -/
structure FileEntry where
  name : String
  data : String
  size : Nat
deriving DecidableEq, Repr

/-- The body of the collection loop (source lines 174-179), already
given the sorted entries.  An entry failing the regular-file or size
guard is skipped; an entry whose read raises propagates the exception,
aborting the whole loop — there is no `try`/`except` around it in the
source. -/
def collectLoop : List Entry → Except PyExn (List FileEntry)
  | [] => .ok []
  | e :: rest =>
    if passF e then
      match e.content with
      | none => .error (.osError ("Permission denied: " ++ e.name))
      | some bs =>
        match collectLoop rest with
        | .error ex => .error ex
        | .ok tail => .ok (⟨e.name, b64encode bs, e.size⟩ :: tail)
    else collectLoop rest

/-- Output-file collection (source lines 172-179): nothing is collected
when `os.path.isdir(output_dir)` is false, otherwise the loop runs over
the sorted listing. -/
def collectFiles (dirExists : Bool) (entries : List Entry) : Except PyExn (List FileEntry) :=
  if dirExists then collectLoop (sortByName entries) else .ok []

/-- What the launched child process did, as observed by the supervisor:
`failure` when `subprocess.Popen` itself raised; `finished` when
`proc.communicate(timeout=timeout)` returned raw stdout/stderr bytes
and a return code; `timedOut` when it raised `TimeoutExpired` —
`killpgOk` tells whether `os.killpg` succeeded (source lines 155-158),
and `drain` is the partial output returned by the secondary
`proc.communicate(timeout=5)`, or `none` when that drain itself raised
`TimeoutExpired` (source line 160). -/
inductive LaunchResult where
  | failure (msg : String)
  | finished (rawStdout rawStderr : List Nat) (returncode : Int)
  | timedOut (killpgOk : Bool) (drain : Option (List Nat × List Nat))
deriving DecidableEq, Repr

/-- The outcome of every operating-system interaction of one
invocation of `execute_code`: the directory name `tempfile.mkdtemp`
returned, whether staging raised (`mkdtemp`, `os.makedirs`, or writing
the script file — all executed before the `try` of source line 137),
the child's behavior, whether the output directory still exists when
collection starts (source line 173), and the directory's immediate
children (`os.listdir` is not recursive). -/
structure World where
  workDir : String
  stagingError : Option String
  launch : LaunchResult
  outputDirSurvives : Bool
  entries : List Entry
deriving DecidableEq, Repr

/-- The dictionary returned by `execute_code` (source lines 184-189). -/
structure ExecResult where
  stdout : List Nat
  stderr : List Nat
  exitCode : Int
  files : List FileEntry
deriving DecidableEq, Repr

/-- The observable outcome of one invocation of `execute_code`:
the returned dictionary or the propagated exception, whether the
cleanup `shutil.rmtree(work_dir, ...)` of source line 182 executed,
the command and environment passed to `subprocess.Popen` (when it was
invoked), and which kill calls ran on the timeout path. -/
structure ExecOutcome where
  result : Except PyExn ExecResult
  cleanedUp : Bool
  launchedCmd : Option (List String)
  launchedEnv : Option (List (String × String))
  sentKillpg : Bool
  sentKillFallback : Bool

/-- Python's `str(e)` for the `TimeoutExpired` raised by the secondary
drain `proc.communicate(timeout=5)` (quoting of the command list is
simplified; no claim depends on this text). -/
def timeoutExpiredMsg (cmd : List String) (secs : Nat) : String :=
  "Command [" ++ String.intercalate ", " cmd ++ "] timed out after " ++ toString secs ++ " seconds"

/-- Source lines 171-189: collect the output files, then clean up, then
return.  A collection error propagates immediately, so `shutil.rmtree`
on line 182 never runs on that path. -/
def finishCollect (w : World) (stdout stderr : List Nat) (exitCode : Int)
    (cmd : Option (List String)) (env : Option (List (String × String)))
    (kp kf : Bool) : ExecOutcome :=
  match collectFiles w.outputDirSurvives w.entries with
  | .error ex => ⟨.error ex, false, cmd, env, kp, kf⟩
  | .ok files => ⟨.ok ⟨stdout, stderr, exitCode, files⟩, true, cmd, env, kp, kf⟩

/-- The execution engine, `execute_code(language, code, timeout)`
(source lines 113-189).  `hostEnv` is the ambient `os.environ` of the
supervising process: it is in scope in the source and is deliberately
never consulted — the child environment is built from the `SAFE_ENV`
literal plus `OUTPUT_DIR` only (source line 144).

Staging (lines 115-129) runs before the `try`, so a staging error
propagates.  The `except Exception` of line 166 turns a `Popen` failure
— and any exception raised inside the inner `TimeoutExpired` handler,
such as the secondary drain timing out — into `stdout=""`,
`stderr=str(e)`, `exit_code=1`.  On the `TimeoutExpired` path the
process group is killed (falling back to `proc.kill()` when `os.killpg`
raises `OSError`), the partial output is drained, truncated exactly
like the normal path, and `stderr` is synthesized by the f-string of
line 163 followed by `.strip()`. -/
def execute_code (hostEnv : List (String × String)) (language : String) (code : String)
    (timeout : Int) (w : World) : ExecOutcome :=
  match w.stagingError with
  | some msg => ⟨.error (.osError msg), false, none, none, false, false⟩
  | none =>
    let work_dir := w.workDir
    let output_dir := work_dir ++ "/" ++ OUTPUT_DIR_NAME
    let ext := if language == "python" then ".py" else ".js"
    let script_path := work_dir ++ "/script" ++ ext
    let cmd := if language == "python" then ["python3", script_path] else ["node", script_path]
    let env := SAFE_ENV ++ [("OUTPUT_DIR", output_dir)]
    match w.launch with
    | .failure msg =>
      finishCollect w [] (strCodes msg) 1 (some cmd) (some env) false false
    | .finished rawOut rawErr rc =>
      finishCollect w (truncDecode rawOut) (truncDecode rawErr) rc (some cmd) (some env) false false
    | .timedOut killpgOk drain =>
      match drain with
      | some (rawOut, rawErr) =>
        let stdout := truncDecode rawOut
        let drainedErr := truncDecode rawErr
        let stderr := pyStrip
          (strCodes ("Execution timed out after " ++ toString timeout ++ "s\n") ++ drainedErr)
        finishCollect w stdout stderr 124 (some cmd) (some env) true (!killpgOk)
      | none =>
        finishCollect w [] (strCodes (timeoutExpiredMsg cmd 5)) 1 (some cmd) (some env) true (!killpgOk)

/-- A `POST /run` request as `do_POST` observes it: the request path,
the `Content-Length` value, and the outcome of `json.loads` on the body
(`Except.error` meaning a `JSONDecodeError`). -/
structure Request where
  path : String
  contentLength : Nat
  parsed : Except Unit PyVal

/-- A response written by `_send_json`: either an input-rejection
`{"error": ...}` with its HTTP status, or a serialized execution
result. -/
inductive Reply where
  | errorReply (status : Nat) (msg : String)
  | resultReply (r : ExecResult)

/-- Source line 86: `timeout = min(int(body.get("timeout", DEFAULT_TIMEOUT)), MAX_TIMEOUT)`.
Note there is no lower clamp. -/
def effectiveTimeout (fields : List (String × PyVal)) : Except PyExn Int :=
  match pyInt (dictGet fields "timeout" (.vint DEFAULT_TIMEOUT)) with
  | .error ex => .error ex
  | .ok n => .ok (min n MAX_TIMEOUT)

/-- The `POST` handler `SandboxHandler.do_POST` (source lines 65-110).
An `Except.error` value means the handler raised and no response was
written for the request (the `http.server` framework catches it outside
the handler).  The evaluation order follows the source: path check,
size check, JSON parse, `body.get` calls with the timeout conversion of
line 86, then the language whitelist, then the empty-code check, then
the engine invocation. -/
def do_POST (req : Request) (hostEnv : List (String × String)) (w : World) :
    Except PyExn Reply :=
  if req.path ≠ "/run" then .ok (.errorReply 404 "not found")
  else if req.contentLength > MAX_CODE_BYTES then
    .ok (.errorReply 413 ("request too large (max " ++ toString MAX_CODE_BYTES ++ " bytes)"))
  else
    match req.parsed with
    | .error _ => .ok (.errorReply 400 "invalid JSON")
    | .ok bodyVal =>
      match asDict bodyVal with
      | .error ex => .error ex
      | .ok fields =>
        let language := dictGet fields "language" (.vstr "python")
        let codeVal := dictGet fields "code" (.vstr "")
        match effectiveTimeout fields with
        | .error ex => .error ex
        | .ok timeout =>
          if ! isSupportedLang language then
            .ok (.errorReply 400 ("unsupported language: " ++ pyStr language))
          else
            match asStr codeVal with
            | .error ex => .error ex
            | .ok code =>
              if pyStrip (strCodes code) = [] then .ok (.errorReply 400 "empty code")
              else
                match (execute_code hostEnv (pyStr language) code timeout w).result with
                | .error ex => .error ex
                | .ok r => .ok (.resultReply r)

/-- Whether `do_POST` wrote exactly one well-formed response (as
opposed to raising). -/
def respondsOk (req : Request) (hostEnv : List (String × String)) (w : World) : Bool :=
  match do_POST req hostEnv w with
  | .ok _ => true
  | .error _ => false

/-- The exit code of the returned result, `none` when the invocation
raised. -/
def resultExitCode (o : ExecOutcome) : Option Int :=
  match o.result with
  | .ok r => some r.exitCode
  | .error _ => none

/-- The stdout text of the returned result. -/
def resultStdout (o : ExecOutcome) : Option (List Nat) :=
  match o.result with
  | .ok r => some r.stdout
  | .error _ => none

/-- The stderr text of the returned result. -/
def resultStderr (o : ExecOutcome) : Option (List Nat) :=
  match o.result with
  | .ok r => some r.stderr
  | .error _ => none

/-- The files list of the returned result. -/
def resultFiles (o : ExecOutcome) : Option (List FileEntry) :=
  match o.result with
  | .ok r => some r.files
  | .error _ => none

/-- The length of the stdout text of the returned result. -/
def resultStdoutLen (o : ExecOutcome) : Option Nat :=
  match o.result with
  | .ok r => some r.stdout.length
  | .error _ => none

/-- Whether the invocation propagated an exception. -/
def outcomeIsErr (o : ExecOutcome) : Bool :=
  match o.result with
  | .ok _ => false
  | .error _ => true

/-- Whether collection succeeds for this world (no entry that passes
the guards has an unreadable content). -/
def collectOkB (w : World) : Bool :=
  match collectFiles w.outputDirSurvives w.entries with
  | .ok _ => true
  | .error _ => false

/-- Whether `pyInt` succeeds on this value. -/
def intConvertible (v : PyVal) : Bool :=
  match pyInt v with
  | .ok _ => true
  | .error _ => false

/-- Whether the value is a Python string. -/
def isStrB : PyVal → Bool
  | .vstr _ => true
  | _ => false

/-- The string carried by a `vstr`, if any. -/
def strOf : PyVal → Option String
  | .vstr s => some s
  | _ => none

/-- The effective timeout as an option, for stating hypotheses
decidably. -/
def effTimeoutOpt (fields : List (String × PyVal)) : Option Int :=
  match effectiveTimeout fields with
  | .ok n => some n
  | .error _ => none

/-- The executed result carried by a reply, if any. -/
def replyResultOpt : Except PyExn Reply → Option ExecResult
  | .ok (.resultReply r) => some r
  | _ => none

/-- The result dictionary of an outcome as an option. -/
def execResultOpt (o : ExecOutcome) : Option ExecResult :=
  match o.result with
  | .ok r => some r
  | .error _ => none

/-- Requests whose dynamic field types match what the handler assumes:
the body (when it parses) must be a JSON object, the `timeout` field
must be `int()`-convertible, and — when the language passes the
whitelist — the `code` field must be a string and, when the code is
also non-empty so that execution is reached, staging and collection
must succeed.  This is the hypothesis under which `do_POST` is total. -/
def WellTyped (req : Request) (w : World) : Prop :=
  match req.parsed with
  | .error _ => True
  | .ok (.vdict fields) =>
    intConvertible (dictGet fields "timeout" (.vint DEFAULT_TIMEOUT)) = true ∧
    (isSupportedLang (dictGet fields "language" (.vstr "python")) = true →
      isStrB (dictGet fields "code" (.vstr "")) = true ∧
      (w.stagingError = none ∧ collectOkB w = true))
  | .ok _ => False

/-! ### Helper lemmas about the UTF-8 decoder -/

theorem utf8DecodeReplace_nil : utf8DecodeReplace [] = [] := by
  rw [utf8DecodeReplace.eq_def]

/-- Decoding a pure-ASCII byte string is the identity. -/
theorem utf8DecodeReplace_ascii (l : List Nat) (h : ∀ b ∈ l, b < 128) :
    utf8DecodeReplace l = l := by
  induction l with
  | nil => exact utf8DecodeReplace_nil
  | cons b t ih =>
    have hb : b < 128 := h b (List.mem_cons_self b t)
    rw [utf8DecodeReplace.eq_def]
    simp only [if_pos hb]
    rw [ih (fun x hx => h x (List.mem_cons_of_mem b hx))]

/-- A byte string made of `n` copies of the two-byte UTF-8 sequence
`0xC3 0xA9` (the encoding of U+00E9). -/
def rep2 : Nat → List Nat
  | 0 => []
  | n + 1 => 195 :: 169 :: rep2 n

theorem rep2_length (n : Nat) : (rep2 n).length = 2 * n := by
  induction n with
  | zero => rfl
  | succ m ih => rw [rep2]; simp [ih]; omega

/-- Each two-byte sequence decodes to the single code point U+00E9. -/
theorem utf8_rep2 (n : Nat) : utf8DecodeReplace (rep2 n) = List.replicate n 233 := by
  induction n with
  | zero => exact utf8DecodeReplace_nil
  | succ m ih =>
    rw [rep2, utf8DecodeReplace.eq_def]
    norm_num
    rw [ih, List.replicate_succ]

/-! ### Helper lemmas about stripping -/

theorem lstripCp_cons_of_not (a : Nat) (l : List Nat) (h : isPySpace a = false) :
    lstripCp (a :: l) = a :: l := by
  simp [lstripCp, List.dropWhile_cons, h]

theorem dropWhile_append_of_nil {p : Nat → Bool} (xs ys : List Nat)
    (h : List.dropWhile p xs = []) :
    List.dropWhile p (xs ++ ys) = List.dropWhile p ys := by
  induction xs with
  | nil => rfl
  | cons x xs ih =>
    cases hpx : p x with
    | true =>
      rw [List.dropWhile_cons] at h
      simp only [hpx, if_pos] at h
      simp only [List.cons_append, List.dropWhile_cons, hpx, if_pos]
      exact ih h
    | false =>
      rw [List.dropWhile_cons] at h
      simp [hpx] at h
    
theorem dropWhile_append_of_cons {p : Nat → Bool} (xs ys : List Nat) (z : Nat) (zs : List Nat)
    (h : List.dropWhile p xs = z :: zs) :
    List.dropWhile p (xs ++ ys) = z :: zs ++ ys := by
  induction xs with
  | nil => simp at h
  | cons x xs ih =>
    cases hpx : p x with
    | true =>
      rw [List.dropWhile_cons] at h
      simp only [hpx, if_pos] at h
      simp only [List.cons_append, List.dropWhile_cons, hpx, if_pos]
      exact ih h
    | false =>
      rw [List.dropWhile_cons] at h
      simp only [hpx, Bool.false_eq_true, if_false] at h
      simp only [List.cons_append, List.dropWhile_cons, hpx, Bool.false_eq_true, if_false]
      injection h with h1 h2
      subst h1
      subst h2
      simp

/-- When a block ends in a non-whitespace code point, right-stripping
after appending a tail strips only the tail. -/
theorem rstripCp_append (m : List Nat) (a : Nat) (p : List Nat) (h : isPySpace a = false) :
    rstripCp ((m ++ [a]) ++ p) = (m ++ [a]) ++ rstripCp p := by
  unfold rstripCp
  have h1 : ((m ++ [a]) ++ p).reverse = p.reverse ++ (a :: m.reverse) := by simp
  rw [h1]
  cases hdw : List.dropWhile isPySpace p.reverse with
  | nil =>
    rw [dropWhile_append_of_nil _ _ hdw]
    rw [List.dropWhile_cons]
    simp [h]
  | cons z zs =>
    rw [dropWhile_append_of_cons _ _ _ _ hdw]
    simp

/-! ### Helper lemmas about base64 -/

theorem b64_table : ∀ n < 64, b64Val (b64CharOf n) = some n := by decide

theorem b64CharOf_ne_pad : ∀ n < 64, ¬(b64CharOf n = b64Pad) := by decide

/-- Decoding inverts encoding on genuine byte lists. -/
theorem b64_roundtrip_list : ∀ l : List Nat, (∀ b ∈ l, b < 256) →
    b64decodeList (b64encodeList l) = some l
  | [], _ => rfl
  | [b1], h => by
    have hb1 : b1 < 256 := h b1 (by simp)
    simp only [b64encodeList, b64decodeList]
    rw [b64_table (b1 / 4) (by omega), b64_table ((b1 % 4) * 16) (by omega)]
    have hs2 : b1 % 4 * 16 % 16 = 0 := by omega
    simp [hs2]
    omega
  | [b1, b2], h => by
    have hb1 : b1 < 256 := h b1 (by simp)
    have hb2 : b2 < 256 := h b2 (by simp)
    simp only [b64encodeList, b64decodeList]
    rw [b64_table (b1 / 4) (by omega), b64_table ((b1 % 4) * 16 + b2 / 16) (by omega),
      b64_table ((b2 % 16) * 4) (by omega)]
    have hne : ¬(b64CharOf (b2 % 16 * 4) = b64Pad) := b64CharOf_ne_pad _ (by omega)
    have hs3 : b2 % 16 * 4 % 4 = 0 := by omega
    simp [hne, hs3]
    omega
  | b1 :: b2 :: b3 :: rest, h => by
    have hb1 : b1 < 256 := h b1 (by simp)
    have hb2 : b2 < 256 := h b2 (by simp)
    have hb3 : b3 < 256 := h b3 (by simp)
    have ih := b64_roundtrip_list rest (fun x hx => h x (by simp [hx]))
    simp only [b64encodeList, b64decodeList]
    rw [b64_table (b1 / 4) (by omega), b64_table ((b1 % 4) * 16 + b2 / 16) (by omega),
      b64_table ((b2 % 16) * 4 + b3 / 64) (by omega), b64_table (b3 % 64) (by omega)]
    have hne3 : ¬(b64CharOf (b2 % 16 * 4 + b3 / 64) = b64Pad) := b64CharOf_ne_pad _ (by omega)
    have hne4 : ¬(b64CharOf (b3 % 64) = b64Pad) := b64CharOf_ne_pad _ (by omega)
    simp [hne3, hne4, ih]
    omega

/-- Round trip at the level of the `data` string field. -/
theorem b64_roundtrip (l : List Nat) (h : ∀ b ∈ l, b < 256) :
    b64decode (b64encode l) = some l := by
  unfold b64decode b64encode
  rw [show (String.mk (b64encodeList l)).data = b64encodeList l from rfl]
  exact b64_roundtrip_list l h

/-! ### Helper lemmas about collection and sorting -/

/-- The file entry built from a readable entry. -/
def mkFileEntry (e : Entry) : FileEntry :=
  ⟨e.name, b64encode (e.content.getD []), e.size⟩

/-- The `files` sequence exactly as the specification words it: the
regular files among the immediate children of the output directory
whose size is strictly below 5 MiB, in lexicographic filename order,
each rendered as name, base64 data and size. -/
def specFiles (entries : List Entry) : List FileEntry :=
  (sortByName (entries.filter passF)).map mkFileEntry

theorem mem_sortByName {a : Entry} {l : List Entry} : a ∈ sortByName l ↔ a ∈ l :=
  (List.perm_insertionSort entLe l).mem_iff

theorem collectLoop_ok (l : List Entry)
    (h : ∀ e ∈ l, passF e = true → e.content.isSome = true) :
    collectLoop l = .ok ((l.filter passF).map mkFileEntry) := by
  induction l with
  | nil => rfl
  | cons e rest ih =>
    have ihr := ih (fun x hx hpx => h x (List.mem_cons_of_mem e hx) hpx)
    by_cases hp : passF e = true
    · have hs : e.content.isSome = true := h e (List.mem_cons_self e rest) hp
      obtain ⟨bs, hbs⟩ := Option.isSome_iff_exists.mp hs
      rw [collectLoop, if_pos hp, hbs, ihr]
      simp [List.filter_cons, hp, mkFileEntry, hbs]
    · rw [collectLoop, if_neg hp, ihr]
      have hp' : passF e = false := by simpa using hp
      simp [List.filter_cons, hp']

theorem orderedInsert_eq_cons (a : Entry) (m : List Entry) (h : ∀ x ∈ m, entLe a x) :
    List.orderedInsert entLe a m = a :: m := by
  cases m with
  | nil => rfl
  | cons x xs => exact List.orderedInsert_of_le entLe xs (h x (List.mem_cons_self x xs))

theorem filter_orderedInsert (p : Entry → Bool) (a : Entry) (l : List Entry)
    (hl : List.Sorted entLe l) :
    (List.orderedInsert entLe a l).filter p =
      if p a then List.orderedInsert entLe a (l.filter p) else l.filter p := by
  induction l with
  | nil => by_cases hpa : p a <;> simp [List.orderedInsert, List.filter_cons, hpa]
  | cons b t ih =>
    by_cases hab : entLe a b
    · rw [List.orderedInsert_of_le entLe t hab]
      have hall : ∀ x ∈ (b :: t).filter p, entLe a x := by
        intro x hx
        have hxm : x ∈ b :: t := List.mem_of_mem_filter hx
        rcases List.mem_cons.mp hxm with hxb | hxt
        · rw [hxb]; exact hab
        · exact IsTrans.trans a b x hab (List.rel_of_sorted_cons hl x hxt)
      rw [orderedInsert_eq_cons a _ hall]
      by_cases hpa : p a <;> simp [List.filter_cons, hpa]
    · simp only [List.orderedInsert, if_neg hab]
      have iht := ih (List.Sorted.of_cons hl)
      by_cases hpb : p b
      · simp only [List.filter_cons, hpb, if_pos, iht]
        by_cases hpa : p a
        · simp [hpa, List.orderedInsert, hab, List.filter_cons, hpb]
        · simp [hpa, List.filter_cons, hpb]
      · have hpb' : p b = false := by simpa using hpb
        simp only [List.filter_cons, hpb', iht]
        by_cases hpa : p a <;> simp [hpa, List.filter_cons, hpb']

theorem filter_sortByName (p : Entry → Bool) (l : List Entry) :
    (sortByName l).filter p = sortByName (l.filter p) := by
  unfold sortByName
  induction l with
  | nil => rfl
  | cons e t ih =>
    simp only [List.insertionSort]
    rw [filter_orderedInsert p e _ (List.sorted_insertionSort entLe t)]
    rw [ih]
    by_cases hpe : p e
    · simp [List.filter_cons, hpe, List.insertionSort]
    · have hpe' : p e = false := by simpa using hpe
      simp [List.filter_cons, hpe', List.insertionSort]

theorem sorted_sortByName (l : List Entry) : List.Sorted entLe (sortByName l) :=
  List.sorted_insertionSort entLe l

/-- Collection succeeds and returns exactly the specification's file
list when every entry passing the guards is readable. -/
theorem collectFiles_spec (entries : List Entry)
    (h : ∀ e ∈ entries, passF e = true → e.content.isSome = true) :
    collectFiles true entries = .ok (specFiles entries) := by
  unfold collectFiles specFiles
  rw [if_pos rfl]
  rw [collectLoop_ok (sortByName entries) (fun e he hp => h e (mem_sortByName.mp he) hp)]
  rw [filter_sortByName]

/-! ### Helper lemmas about the engine -/

theorem finishCollect_eq (w : World) (so se : List Nat) (ec : Int)
    (c : Option (List String)) (e : Option (List (String × String))) (kp kf : Bool)
    (fs : List FileEntry) (hfs : collectFiles w.outputDirSurvives w.entries = .ok fs) :
    finishCollect w so se ec c e kp kf = ⟨.ok ⟨so, se, ec, fs⟩, true, c, e, kp, kf⟩ := by
  unfold finishCollect
  rw [hfs]

theorem collectOkB_exists (w : World) (hc : collectOkB w = true) :
    ∃ fs, collectFiles w.outputDirSurvives w.entries = .ok fs := by
  unfold collectOkB at hc
  cases hE : collectFiles w.outputDirSurvives w.entries with
  | ok fs => exact ⟨fs, rfl⟩
  | error ex => rw [hE] at hc; simp at hc

/-- Whenever staging succeeded and collection succeeds, the engine
returns a normal result (no branch of supervision can raise) and the
cleanup of source line 182 runs. -/
theorem execute_code_ok (hostEnv : List (String × String)) (language code : String)
    (timeout : Int) (w : World) (fs : List FileEntry)
    (hs : w.stagingError = none)
    (hfs : collectFiles w.outputDirSurvives w.entries = .ok fs) :
    ∃ r, (execute_code hostEnv language code timeout w).result = Except.ok r ∧
      r.files = fs ∧ (execute_code hostEnv language code timeout w).cleanedUp = true := by
  obtain ⟨wd, sErr, launch, dx, ents⟩ := w
  dsimp only at hs hfs
  subst hs
  cases launch with
  | failure msg =>
    rw [show execute_code hostEnv language code timeout ⟨wd, none, .failure msg, dx, ents⟩ =
      finishCollect ⟨wd, none, .failure msg, dx, ents⟩ [] (strCodes msg) 1
        (some (if language == "python" then ["python3", wd ++ "/script" ++ ".py"]
          else ["node", wd ++ "/script" ++ ".js"]))
        (some (SAFE_ENV ++ [("OUTPUT_DIR", wd ++ "/" ++ OUTPUT_DIR_NAME)])) false false from by
        unfold execute_code; by_cases hL : language == "python" <;> simp [hL]]
    rw [finishCollect_eq _ _ _ _ _ _ _ _ _ hfs]
    exact ⟨_, rfl, rfl, rfl⟩
  | finished rawOut rawErr rc =>
    rw [show execute_code hostEnv language code timeout ⟨wd, none, .finished rawOut rawErr rc, dx, ents⟩ =
      finishCollect ⟨wd, none, .finished rawOut rawErr rc, dx, ents⟩
        (truncDecode rawOut) (truncDecode rawErr) rc
        (some (if language == "python" then ["python3", wd ++ "/script" ++ ".py"]
          else ["node", wd ++ "/script" ++ ".js"]))
        (some (SAFE_ENV ++ [("OUTPUT_DIR", wd ++ "/" ++ OUTPUT_DIR_NAME)])) false false from by
        unfold execute_code; by_cases hL : language == "python" <;> simp [hL]]
    rw [finishCollect_eq _ _ _ _ _ _ _ _ _ hfs]
    exact ⟨_, rfl, rfl, rfl⟩
  | timedOut killpgOk drain =>
    cases drain with
    | none =>
      rw [show execute_code hostEnv language code timeout
          ⟨wd, none, .timedOut killpgOk none, dx, ents⟩ =
        finishCollect ⟨wd, none, .timedOut killpgOk none, dx, ents⟩ []
          (strCodes (timeoutExpiredMsg (if language == "python"
            then ["python3", wd ++ "/script" ++ ".py"] else ["node", wd ++ "/script" ++ ".js"]) 5)) 1
          (some (if language == "python" then ["python3", wd ++ "/script" ++ ".py"]
            else ["node", wd ++ "/script" ++ ".js"]))
          (some (SAFE_ENV ++ [("OUTPUT_DIR", wd ++ "/" ++ OUTPUT_DIR_NAME)])) true (!killpgOk) from by
          unfold execute_code; by_cases hL : language == "python" <;> simp [hL]]
      rw [finishCollect_eq _ _ _ _ _ _ _ _ _ hfs]
      exact ⟨_, rfl, rfl, rfl⟩
    | some pr =>
      obtain ⟨rawOut, rawErr⟩ := pr
      rw [show execute_code hostEnv language code timeout
          ⟨wd, none, .timedOut killpgOk (some (rawOut, rawErr)), dx, ents⟩ =
        finishCollect ⟨wd, none, .timedOut killpgOk (some (rawOut, rawErr)), dx, ents⟩
          (truncDecode rawOut)
          (pyStrip (strCodes ("Execution timed out after " ++ toString timeout ++ "s\n") ++
            truncDecode rawErr)) 124
          (some (if language == "python" then ["python3", wd ++ "/script" ++ ".py"]
            else ["node", wd ++ "/script" ++ ".js"]))
          (some (SAFE_ENV ++ [("OUTPUT_DIR", wd ++ "/" ++ OUTPUT_DIR_NAME)])) true (!killpgOk) from by
          unfold execute_code; by_cases hL : language == "python" <;> simp [hL]]
      rw [finishCollect_eq _ _ _ _ _ _ _ _ _ hfs]
      exact ⟨_, rfl, rfl, rfl⟩

/-- The interpreter command of source line 131. -/
def cmdOf (language : String) (wd : String) : List String :=
  if language == "python" then ["python3", wd ++ "/script" ++ ".py"]
  else ["node", wd ++ "/script" ++ ".js"]

/-- The child environment of source line 144. -/
def envOf (wd : String) : List (String × String) :=
  SAFE_ENV ++ [("OUTPUT_DIR", wd ++ "/" ++ OUTPUT_DIR_NAME)]

theorem execute_code_failure_eq (hostEnv : List (String × String)) (language code : String)
    (timeout : Int) (wd : String) (dx : Bool) (ents : List Entry) (msg : String) :
    execute_code hostEnv language code timeout ⟨wd, none, .failure msg, dx, ents⟩ =
      finishCollect ⟨wd, none, .failure msg, dx, ents⟩ [] (strCodes msg) 1
        (some (cmdOf language wd)) (some (envOf wd)) false false := by
  unfold execute_code cmdOf envOf
  by_cases hL : language == "python" <;> simp [hL]

theorem execute_code_finished_eq (hostEnv : List (String × String)) (language code : String)
    (timeout : Int) (wd : String) (dx : Bool) (ents : List Entry)
    (rawOut rawErr : List Nat) (rc : Int) :
    execute_code hostEnv language code timeout ⟨wd, none, .finished rawOut rawErr rc, dx, ents⟩ =
      finishCollect ⟨wd, none, .finished rawOut rawErr rc, dx, ents⟩
        (truncDecode rawOut) (truncDecode rawErr) rc
        (some (cmdOf language wd)) (some (envOf wd)) false false := by
  unfold execute_code cmdOf envOf
  by_cases hL : language == "python" <;> simp [hL]

theorem execute_code_timedOut_eq (hostEnv : List (String × String)) (language code : String)
    (timeout : Int) (wd : String) (dx : Bool) (ents : List Entry)
    (killpgOk : Bool) (rawOut rawErr : List Nat) :
    execute_code hostEnv language code timeout
        ⟨wd, none, .timedOut killpgOk (some (rawOut, rawErr)), dx, ents⟩ =
      finishCollect ⟨wd, none, .timedOut killpgOk (some (rawOut, rawErr)), dx, ents⟩
        (truncDecode rawOut)
        (pyStrip (strCodes ("Execution timed out after " ++ toString timeout ++ "s\n") ++
          truncDecode rawErr)) 124
        (some (cmdOf language wd)) (some (envOf wd)) true (!killpgOk) := by
  unfold execute_code cmdOf envOf
  by_cases hL : language == "python" <;> simp [hL]

theorem execute_code_drainFail_eq (hostEnv : List (String × String)) (language code : String)
    (timeout : Int) (wd : String) (dx : Bool) (ents : List Entry) (killpgOk : Bool) :
    execute_code hostEnv language code timeout ⟨wd, none, .timedOut killpgOk none, dx, ents⟩ =
      finishCollect ⟨wd, none, .timedOut killpgOk none, dx, ents⟩ []
        (strCodes (timeoutExpiredMsg (cmdOf language wd) 5)) 1
        (some (cmdOf language wd)) (some (envOf wd)) true (!killpgOk) := by
  unfold execute_code cmdOf envOf
  by_cases hL : language == "python" <;> simp [hL]

theorem strCodes_append (a b : String) : strCodes (a ++ b) = strCodes a ++ strCodes b := by
  unfold strCodes
  rw [String.data_append, List.map_append]

/-- Stripping a string that starts and ends with non-whitespace
followed by a tail only strips the tail on the right. -/
theorem pyStrip_sandwich (h1 : Nat) (mid : List Nat) (h2 : Nat) (p : List Nat)
    (hh : isPySpace h1 = false) (hl : isPySpace h2 = false) :
    pyStrip ((h1 :: (mid ++ [h2])) ++ p) = (h1 :: (mid ++ [h2])) ++ rstripCp p := by
  unfold pyStrip
  rw [show (h1 :: (mid ++ [h2])) ++ p = h1 :: ((mid ++ [h2]) ++ p) by simp]
  rw [lstripCp_cons_of_not _ _ hh]
  rw [show h1 :: ((mid ++ [h2]) ++ p) = ((h1 :: mid) ++ [h2]) ++ p by simp]
  rw [rstripCp_append (h1 :: mid) h2 p hl]
  simp

/-- The `.strip()` of source line 163 leaves the timeout message as a
prefix: the message ends with a non-whitespace character, so only the
separator newline and the trailing end of the partial stderr can be
stripped. -/
theorem pyStrip_timeout (t : Int) (D : List Nat) :
    pyStrip (strCodes ("Execution timed out after " ++ toString t ++ "s\n") ++ D) =
      strCodes ("Execution timed out after " ++ toString t ++ "s") ++ rstripCp (10 :: D) := by
  have hE : strCodes "Execution timed out after " =
      69 :: strCodes "xecution timed out after " := by decide
  have h1 : strCodes ("Execution timed out after " ++ toString t ++ "s\n") ++ D =
      (69 :: ((strCodes "xecution timed out after " ++ strCodes (toString t)) ++ [115])) ++
        (10 :: D) := by
    rw [strCodes_append, strCodes_append, hE]
    rw [show strCodes "s\n" = [115, 10] from by decide]
    simp
  have h2 : strCodes ("Execution timed out after " ++ toString t ++ "s") =
      69 :: ((strCodes "xecution timed out after " ++ strCodes (toString t)) ++ [115]) := by
    rw [strCodes_append, strCodes_append, hE]
    rw [show strCodes "s" = [115] from by decide]
    simp
  rw [h1, h2]
  exact pyStrip_sandwich 69 _ 115 (10 :: D) (by decide) (by decide)

/-! ### Claim C1 -/

/-- A world in which the child exited normally but one collected entry
(a regular file under the size cap) raises on `open`: for instance an
unreadable file created by the snippet. -/
def wLeakC1 : World :=
  ⟨"/tmp/sandbox-leak", none, .finished [] [] 0, true, [⟨"secret.bin", true, 4, none⟩]⟩

/-- C1: the claim fails on the code.  The recursive deletion of the
work root (source line 182) is not in a `finally` block, so on the
collection-error path the exception propagates out of `execute_code`
first and the work-root directory is never deleted: at this concrete
input the invocation ends with an exception and with the cleanup flag
false. -/
theorem c1_cleanup_skipped_on_collection_error :
    (execute_code [] "python" "x = 1" 30 wLeakC1).cleanedUp = false ∧
      outcomeIsErr (execute_code [] "python" "x = 1" 30 wLeakC1) = true := by
  constructor <;> rfl

/-! ### Claim C3 -/

/-- C3 counterexample: a request whose `timeout` field is the integer 0
yields an effective timeout of 0, not 1 — source line 86 computes
`min(int(...), MAX_TIMEOUT)` and never clamps from below. -/
theorem c3_no_lower_clamp :
    effectiveTimeout [("timeout", PyVal.vint 0)] = Except.ok 0 ∧ ¬((1 : Int) ≤ 0) := by
  constructor
  · rfl
  · decide

/-- C3 (amended): the effective timeout is `min(int(timeout), 120)`
with default 30 when the field is absent; values above 120 become 120
and the conversion of an absent field yields 30, but values below 1
pass through unchanged (there is no lower clamp). -/
theorem c3_effectiveTimeout_spec (fields : List (String × PyVal)) (n : Int) :
    (fields.lookup "timeout" = none → effectiveTimeout fields = .ok DEFAULT_TIMEOUT) ∧
      (fields.lookup "timeout" = some (.vint n) →
        effectiveTimeout fields = .ok (min n MAX_TIMEOUT)) := by
  constructor
  · intro h
    unfold effectiveTimeout dictGet
    rw [h]
    rfl
  · intro h
    unfold effectiveTimeout dictGet
    rw [h]
    rfl

/-- Witness for C3: at concrete requests, an absent field gives 30 and
the value 500 is clamped to 120. -/
theorem c3_effectiveTimeout_spec_witness :
    effectiveTimeout [] = .ok DEFAULT_TIMEOUT ∧
      effectiveTimeout [("timeout", PyVal.vint 500)] = .ok (min 500 MAX_TIMEOUT) :=
  ⟨(c3_effectiveTimeout_spec [] 0).1 rfl,
    (c3_effectiveTimeout_spec [("timeout", PyVal.vint 500)] 500).2 rfl⟩

/-! ### Claim C4 -/

/-- A world in which staging already fails: `tempfile.mkdtemp` (or the
script write) raises an `OSError`. -/
def wStageC4 : World :=
  ⟨"/tmp", some "No space left on device", .finished [] [] 0, true, []⟩

/-- C4: the claim fails on the code.  Staging (source lines 115-129)
runs before the `try` of line 137, so a staging failure propagates the
exception out of `execute_code` instead of producing the synthetic
`exitCode = 1` result the specification describes — and the cleanup
never runs either. -/
theorem c4_staging_error_propagates :
    (execute_code [] "python" "x = 1" 30 wStageC4).result =
        Except.error (PyExn.osError "No space left on device") ∧
      (execute_code [] "python" "x = 1" 30 wStageC4).cleanedUp = false := by
  constructor <;> rfl

/-! ### Claim C6 -/

/-- Three regular files under the size cap, the middle one unreadable. -/
def wBadC6 : World :=
  ⟨"/tmp/sandbox-c6", none, .finished [] [] 0, true,
    [⟨"a.txt", true, 2, some [104, 105]⟩, ⟨"b.txt", true, 3, none⟩,
      ⟨"c.txt", true, 1, some [33]⟩]⟩

/-- C6: the claim fails on the code.  The collection loop (source lines
174-179) has no per-entry exception handling, so one unreadable entry
aborts the whole invocation: nothing is collected (not even the
readable `a.txt` and `c.txt`) and the exception propagates. -/
theorem c6_collection_error_aborts :
    outcomeIsErr (execute_code [] "python" "x = 1" 30 wBadC6) = true ∧
      resultFiles (execute_code [] "python" "x = 1" 30 wBadC6) = none := by
  constructor <;> decide

theorem finishCollect_launchedEnv (w : World) (so se : List Nat) (ec : Int)
    (c : Option (List String)) (e : Option (List (String × String))) (kp kf : Bool) :
    (finishCollect w so se ec c e kp kf).launchedEnv = e := by
  unfold finishCollect
  cases collectFiles w.outputDirSurvives w.entries <;> rfl

theorem finishCollect_launchedCmd (w : World) (so se : List Nat) (ec : Int)
    (c : Option (List String)) (e : Option (List (String × String))) (kp kf : Bool) :
    (finishCollect w so se ec c e kp kf).launchedCmd = c := by
  unfold finishCollect
  cases collectFiles w.outputDirSurvives w.entries <;> rfl

theorem finishCollect_kills (w : World) (so se : List Nat) (ec : Int)
    (c : Option (List String)) (e : Option (List (String × String))) (kp kf : Bool) :
    (finishCollect w so se ec c e kp kf).sentKillpg = kp ∧
      (finishCollect w so se ec c e kp kf).sentKillFallback = kf := by
  unfold finishCollect
  cases collectFiles w.outputDirSurvives w.entries <;> exact ⟨rfl, rfl⟩

/-- Whenever staging succeeded, `subprocess.Popen` is invoked with the
command selected from the language enum and the scrubbed environment,
on every supervision branch. -/
theorem execute_code_launched (hostEnv : List (String × String)) (language code : String)
    (timeout : Int) (w : World) (hs : w.stagingError = none) :
    (execute_code hostEnv language code timeout w).launchedCmd = some (cmdOf language w.workDir) ∧
      (execute_code hostEnv language code timeout w).launchedEnv =
        some (envOf w.workDir) := by
  obtain ⟨wd, sErr, launch, dx, ents⟩ := w
  dsimp only at hs
  subst hs
  cases launch with
  | failure msg =>
    rw [execute_code_failure_eq]
    exact ⟨finishCollect_launchedCmd _ _ _ _ _ _ _ _, finishCollect_launchedEnv _ _ _ _ _ _ _ _⟩
  | finished rawOut rawErr rc =>
    rw [execute_code_finished_eq]
    exact ⟨finishCollect_launchedCmd _ _ _ _ _ _ _ _, finishCollect_launchedEnv _ _ _ _ _ _ _ _⟩
  | timedOut killpgOk drain =>
    cases drain with
    | none =>
      rw [execute_code_drainFail_eq]
      exact ⟨finishCollect_launchedCmd _ _ _ _ _ _ _ _, finishCollect_launchedEnv _ _ _ _ _ _ _ _⟩
    | some pr =>
      obtain ⟨rawOut, rawErr⟩ := pr
      rw [execute_code_timedOut_eq]
      exact ⟨finishCollect_launchedCmd _ _ _ _ _ _ _ _, finishCollect_launchedEnv _ _ _ _ _ _ _ _⟩

theorem strOf_some {v : PyVal} {s : String} (h : strOf v = some s) : v = .vstr s := by
  cases v <;> simp [strOf] at h <;> rw [h]

theorem isStrB_some {v : PyVal} (h : isStrB v = true) : ∃ s, v = .vstr s := by
  cases v <;> simp [isStrB] at h
  case vstr s => exact ⟨s, rfl⟩

/-! ### Claim C9 -/

/-- C9: the launch environment is exactly `SAFE_ENV` plus the
`OUTPUT_DIR` variable, and the whole observable outcome of the engine
is independent of the supervising process's ambient environment — the
source builds the `Popen` environment from the `SAFE_ENV` literal only
and never consults `os.environ`. -/
theorem c9_env_allowlist (h1 h2 : List (String × String)) (language code : String)
    (timeout : Int) (w : World) (hs : w.stagingError = none) :
    execute_code h1 language code timeout w = execute_code h2 language code timeout w ∧
      (execute_code h1 language code timeout w).launchedEnv =
        some (SAFE_ENV ++ [("OUTPUT_DIR", w.workDir ++ "/" ++ OUTPUT_DIR_NAME)]) :=
  ⟨rfl, (execute_code_launched h1 language code timeout w hs).2⟩

/-- A world with a normal, fileless run, for the C9 witness. -/
def wEnvC9 : World := ⟨"/tmp/sandbox-e", none, .finished [] [] 0, false, []⟩

/-- Witness for C9: a host environment carrying a secret and an empty
host environment yield identical outcomes, and the launched environment
is the allow-list plus `OUTPUT_DIR`. -/
theorem c9_env_allowlist_witness :
    execute_code [("AWS_SECRET_ACCESS_KEY", "hunter2")] "python" "print(1)" 30 wEnvC9 =
        execute_code [] "python" "print(1)" 30 wEnvC9 ∧
      (execute_code [("AWS_SECRET_ACCESS_KEY", "hunter2")] "python" "print(1)" 30 wEnvC9).launchedEnv =
        some (SAFE_ENV ++ [("OUTPUT_DIR", wEnvC9.workDir ++ "/" ++ OUTPUT_DIR_NAME)]) :=
  c9_env_allowlist [("AWS_SECRET_ACCESS_KEY", "hunter2")] [] "python" "print(1)" 30 wEnvC9 rfl

/-! ### Claim C10 -/

/-- C10: a `/run` request whose JSON body has no `language` field is
not rejected: `body.get("language", "python")` defaults it to
`"python"`, the whitelist check passes, and the engine launches
`python3` on the staged script. -/
theorem c10_default_language_python (req : Request) (hostEnv : List (String × String))
    (w : World) (fields : List (String × PyVal)) (code : String) (t : Int)
    (hpath : req.path = "/run")
    (hcl : ¬ req.contentLength > MAX_CODE_BYTES)
    (hparse : req.parsed = .ok (.vdict fields))
    (hnolang : fields.lookup "language" = none)
    (hcode : strOf (dictGet fields "code" (.vstr "")) = some code)
    (hne : ¬ pyStrip (strCodes code) = [])
    (ht : effTimeoutOpt fields = some t)
    (hs : w.stagingError = none)
    (hc : collectOkB w = true) :
    (execute_code hostEnv "python" code t w).launchedCmd =
        some ["python3", w.workDir ++ "/script" ++ ".py"] ∧
      (execResultOpt (execute_code hostEnv "python" code t w)).isSome = true ∧
      replyResultOpt (do_POST req hostEnv w) =
        execResultOpt (execute_code hostEnv "python" code t w) := by
  have hlang : dictGet fields "language" (.vstr "python") = .vstr "python" := by
    unfold dictGet
    rw [hnolang]
  have hcodeEq : dictGet fields "code" (.vstr "") = .vstr code := strOf_some hcode
  have htE : effectiveTimeout fields = .ok t := by
    unfold effTimeoutOpt at ht
    cases hE : effectiveTimeout fields with
    | ok n => rw [hE] at ht; simp at ht; rw [ht]
    | error ex => rw [hE] at ht; simp at ht
  obtain ⟨fs, hfs⟩ := collectOkB_exists w hc
  obtain ⟨r, hr, hrfiles, hclean⟩ := execute_code_ok hostEnv "python" code t w fs hs hfs
  have hcmd := (execute_code_launched hostEnv "python" code t w hs).1
  refine ⟨?_, ?_, ?_⟩
  · rw [hcmd]
    unfold cmdOf
    simp
  · rw [show execResultOpt (execute_code hostEnv "python" code t w) = some r from by
      unfold execResultOpt; rw [hr]]
    rfl
  · have hnp : ¬ req.path ≠ "/run" := by rw [hpath]; simp
    unfold do_POST
    rw [if_neg hnp, if_neg hcl, hparse]
    dsimp only [asDict]
    rw [htE]
    dsimp only
    rw [hlang]
    rw [if_neg (show ¬ ((! isSupportedLang (PyVal.vstr "python")) = true) from by decide)]
    rw [hcodeEq]
    dsimp only [asStr]
    rw [if_neg hne]
    dsimp only [pyStr]
    rw [hr]
    unfold replyResultOpt execResultOpt
    rw [hr]
  
/-- Concrete request with no `language` field, for the C10 witness. -/
def reqC10 : Request := ⟨"/run", 20, .ok (.vdict [("code", .vstr "print(1)")])⟩

/-- A world with a normal run and no output files, for the C10 witness. -/
def wRunC10 : World := ⟨"/tmp/sandbox-n", none, .finished [] [] 0, false, []⟩

/-- Witness for C10 at a concrete request omitting `language`. -/
theorem c10_default_language_python_witness :
    (execute_code [] "python" "print(1)" 30 wRunC10).launchedCmd =
        some ["python3", wRunC10.workDir ++ "/script" ++ ".py"] ∧
      (execResultOpt (execute_code [] "python" "print(1)" 30 wRunC10)).isSome = true ∧
      replyResultOpt (do_POST reqC10 [] wRunC10) =
        execResultOpt (execute_code [] "python" "print(1)" 30 wRunC10) :=
  c10_default_language_python reqC10 [] wRunC10 [("code", .vstr "print(1)")] "print(1)" 30
    rfl (by decide) rfl rfl rfl (by decide) (by decide) rfl rfl

/-! ### Claim C2 -/

/-- A syntactically valid `/run` request whose `timeout` field is a
non-numeric string. -/
def reqBadC2 : Request :=
  ⟨"/run", 10, .ok (.vdict [("code", .vstr "print(1)"), ("timeout", .vstr "soon")])⟩

/-- A world with a normal idle run (never reached by the request
above). -/
def wIdleC2 : World := ⟨"/tmp/sandbox-i", none, .finished [] [] 0, false, []⟩

/-- C2 counterexample: the handler does not validate field types, so a
body with `"timeout": "soon"` makes `int(...)` on source line 86 raise
`ValueError`, the exception leaves `do_POST`, and no response at all is
written for the request — refuting the claim for arbitrary field
types.  (A non-object body such as `[1,2]`, or a non-string `code`,
fails the same way.) -/
theorem c2_type_error_escapes : respondsOk reqBadC2 [] wIdleC2 = false := by decide

/-- C2 (amended): for every request that is *well-typed* — the body,
when it parses, is a JSON object whose `timeout` field is
`int()`-convertible and, when the language passes the whitelist, whose
`code` field is a string, with staging and collection succeeding when
execution is reached — `do_POST` returns exactly one well-formed
response (an input-rejection or an execution result) and raises
nothing. -/
theorem c2_do_POST_total (req : Request) (hostEnv : List (String × String)) (w : World)
    (h : WellTyped req w) : respondsOk req hostEnv w = true := by
  unfold respondsOk
  suffices hok : ∃ rep, do_POST req hostEnv w = .ok rep by
    obtain ⟨rep, hrep⟩ := hok
    rw [hrep]
  unfold do_POST
  by_cases hpath : req.path ≠ "/run"
  · rw [if_pos hpath]; exact ⟨_, rfl⟩
  · rw [if_neg hpath]
    by_cases hcl : req.contentLength > MAX_CODE_BYTES
    · rw [if_pos hcl]; exact ⟨_, rfl⟩
    · rw [if_neg hcl]
      unfold WellTyped at h
      cases hparse : req.parsed with
      | error u => exact ⟨_, rfl⟩
      | ok v =>
        rw [hparse] at h
        cases v with
        | vstr s => exact absurd h (by simp)
        | vint n => exact absurd h (by simp)
        | vbool b => exact absurd h (by simp)
        | vnone => exact absurd h (by simp)
        | vlist => exact absurd h (by simp)
        | vdict fields =>
          dsimp only at h
          obtain ⟨ht, hrest⟩ := h
          dsimp only [asDict]
          have htE : ∃ tn, effectiveTimeout fields = .ok tn := by
            unfold effectiveTimeout
            unfold intConvertible at ht
            cases hpi : pyInt (dictGet fields "timeout" (.vint DEFAULT_TIMEOUT)) with
            | ok n => exact ⟨min n MAX_TIMEOUT, rfl⟩
            | error ex => rw [hpi] at ht; simp at ht
          obtain ⟨tn, htn⟩ := htE
          rw [htn]
          dsimp only
          by_cases hlang : isSupportedLang (dictGet fields "language" (.vstr "python")) = true
      
          case neg =>
            rw [if_pos (show (! isSupportedLang (dictGet fields "language" (.vstr "python"))) = true
              from by simp [Bool.not_eq_true'] at hlang ⊢; exact hlang)]
            exact ⟨_, rfl⟩
          case pos =>
            obtain ⟨hcode, hstage, hcoll⟩ := hrest hlang
            obtain ⟨cs, hcs⟩ := isStrB_some hcode
            rw [if_neg (show ¬ ((! isSupportedLang (dictGet fields "language" (.vstr "python"))) = true)
              from by simp [hlang])]
            rw [hcs]
            dsimp only [asStr]
            by_cases hempty : pyStrip (strCodes cs) = []
            · rw [if_pos hempty]; exact ⟨_, rfl⟩
            · rw [if_neg hempty]
              obtain ⟨fs, hfs⟩ := collectOkB_exists w hcoll
              obtain ⟨r, hr, _, _⟩ := execute_code_ok hostEnv
                (pyStr (dictGet fields "language" (.vstr "python"))) cs tn w fs hstage hfs
              rw [hr]
              exact ⟨_, rfl⟩

/-- Concrete well-typed request for the C2 witness. -/
def reqOkC2 : Request := ⟨"/run", 30, .ok (.vdict [("code", .vstr "print(2)")])⟩

/-- A world with a normal run, for the C2 witness. -/
def wRunC2 : World := ⟨"/tmp/sandbox-j", none, .finished [49, 10] [] 0, true, []⟩

/-- Witness for C2 at a concrete well-typed request. -/
theorem c2_do_POST_total_witness : respondsOk reqOkC2 [] wRunC2 = true :=
  c2_do_POST_total reqOkC2 [] wRunC2
    ⟨by decide, fun _ => ⟨by decide, rfl, by decide⟩⟩

/-! ### Claim C5 -/

/-- A world in which the child overran its timeout and then the
secondary drain `proc.communicate(timeout=5)` itself raised
`TimeoutExpired` (for example a surviving grandchild kept the pipes
open after the group kill failed partially). -/
def wDrainC5 : World := ⟨"/tmp/sandbox-d", none, .timedOut true none, false, []⟩

/-- C5 counterexample: when the child does not finish within the
timeout but the bounded drain also times out, the second
`TimeoutExpired` escapes the inner handler and is caught by the generic
`except Exception` of source line 166, so the result carries
`exitCode = 1` — not the sentinel 124 the claim promises for every
timeout. -/
theorem c5_drain_failure_exit_1 :
    resultExitCode (execute_code [] "python" "while True: pass" 30 wDrainC5) = some 1 ∧
      ¬ resultExitCode (execute_code [] "python" "while True: pass" 30 wDrainC5) = some 124 := by
  constructor
  · rfl
  · decide

/-- C5 (amended): when the child does not finish within the timeout
*and the bounded drain completes*, the supervisor kills the whole
process group (attempting `proc.kill()` when the group kill fails),
drains and truncates the partial output, sets the sentinel 124, and
synthesizes a stderr that is exactly the timeout message followed by
the right-stripped partial stderr — in particular the message is a
prefix of it.  (When the drain itself times out, the invocation instead
reports `exitCode = 1` with the exception text, per the
counterexample.) -/
theorem c5_timeout_path_spec (hostEnv : List (String × String)) (language code : String)
    (t : Int) (w : World) (kOk : Bool) (rawOut rawErr : List Nat)
    (hs : w.stagingError = none)
    (hl : w.launch = .timedOut kOk (some (rawOut, rawErr)))
    (hc : collectOkB w = true) :
    (execute_code hostEnv language code t w).sentKillpg = true ∧
      (kOk = false → (execute_code hostEnv language code t w).sentKillFallback = true) ∧
      resultExitCode (execute_code hostEnv language code t w) = some 124 ∧
      resultStdout (execute_code hostEnv language code t w) = some (truncDecode rawOut) ∧
      resultStderr (execute_code hostEnv language code t w) =
        some (strCodes ("Execution timed out after " ++ toString t ++ "s") ++
          rstripCp (10 :: truncDecode rawErr)) ∧
      (resultStderr (execute_code hostEnv language code t w)).map
          (List.take (strCodes ("Execution timed out after " ++ toString t ++ "s")).length) =
        some (strCodes ("Execution timed out after " ++ toString t ++ "s")) := by
  obtain ⟨wd, sErr, launch, dx, ents⟩ := w
  dsimp only at hs hl hc
  subst hs
  subst hl
  obtain ⟨fs, hfs⟩ := collectOkB_exists ⟨wd, none, .timedOut kOk (some (rawOut, rawErr)), dx, ents⟩ hc
  rw [execute_code_timedOut_eq]
  rw [finishCollect_eq _ _ _ _ _ _ _ _ _ hfs]
  have hstderr : pyStrip (strCodes ("Execution timed out after " ++ toString t ++ "s\n") ++
      truncDecode rawErr) =
      strCodes ("Execution timed out after " ++ toString t ++ "s") ++
        rstripCp (10 :: truncDecode rawErr) := pyStrip_timeout t (truncDecode rawErr)
  refine ⟨rfl, fun hk => by rw [hk]; rfl, rfl, rfl, ?_, ?_⟩
  · unfold resultStderr
    dsimp only
    rw [hstderr]
  · unfold resultStderr
    dsimp only
    rw [hstderr]
    simp only [Option.map_some']
    rw [List.take_left]

/-- A timed-out world whose drain succeeded, for the C5 witness: the
group kill failed (forcing the fallback kill), and the partial stderr
is one line. -/
def wTimeC5 : World :=
  ⟨"/tmp/sandbox-t", none, .timedOut false (some ([72], [66, 10])), true, []⟩

/-- Witness for C5 at a concrete timed-out world. -/
theorem c5_timeout_path_spec_witness :
    (execute_code [] "python" "print(1)" 7 wTimeC5).sentKillpg = true ∧
      (false = false → (execute_code [] "python" "print(1)" 7 wTimeC5).sentKillFallback = true) ∧
      resultExitCode (execute_code [] "python" "print(1)" 7 wTimeC5) = some 124 ∧
      resultStdout (execute_code [] "python" "print(1)" 7 wTimeC5) = some (truncDecode [72]) ∧
      resultStderr (execute_code [] "python" "print(1)" 7 wTimeC5) =
        some (strCodes ("Execution timed out after " ++ toString (7 : Int) ++ "s") ++
          rstripCp (10 :: truncDecode [66, 10])) ∧
      (resultStderr (execute_code [] "python" "print(1)" 7 wTimeC5)).map
          (List.take (strCodes ("Execution timed out after " ++ toString (7 : Int) ++ "s")).length) =
        some (strCodes ("Execution timed out after " ++ toString (7 : Int) ++ "s")) :=
  c5_timeout_path_spec [] "python" "print(1)" 7 wTimeC5 false [72] [66, 10] rfl rfl (by decide)

/-! ### Claim C7 -/

/-- A world whose child wrote 102402 bytes of two-byte UTF-8 sequences
(51201 copies of U+00E9) to stdout and exited normally. -/
def wMbC7 : World := ⟨"/tmp/sandbox-m", none, .finished (rep2 51201) [] 0, false, []⟩

/-- C7 counterexample: the slice `[:MAX_OUTPUT_BYTES]` of source line
150 is applied to the *decoded text*, so it counts code points, not
bytes.  This snippet produces 102402 bytes of stdout — more than
100 KiB — yet the stdout field is 51201 code points long, not
`MAX_OUTPUT_BYTES`. -/
theorem c7_truncation_counts_codepoints :
    MAX_OUTPUT_BYTES < (rep2 51201).length ∧
      resultStdoutLen (execute_code [] "python" "x = 1" 30 wMbC7) = some 51201 ∧
      ¬ (51201 = MAX_OUTPUT_BYTES) := by
  refine ⟨?_, ?_, by decide⟩
  · rw [rep2_length]
    decide
  · rw [show wMbC7 = ⟨"/tmp/sandbox-m", none, .finished (rep2 51201) [] 0, false, []⟩ from rfl]
    rw [execute_code_finished_eq]
    rw [finishCollect_eq _ _ _ _ _ _ _ _ [] (by rfl)]
    unfold resultStdoutLen
    dsimp only
    refine congrArg some ?_
    unfold truncDecode
    rw [utf8_rep2, List.length_take, List.length_replicate]
    decide

/-- C7 (amended): stdout and stderr are the permissive UTF-8 decodings
of the raw bytes, truncated to at most `MAX_OUTPUT_BYTES` *code
points* each; for ASCII output the cap coincides with bytes, so a
snippet producing at least `MAX_OUTPUT_BYTES` bytes of ASCII stdout
yields a field exactly `MAX_OUTPUT_BYTES` long — but multi-byte output
can yield fewer code points even when the byte count exceeds the cap
(see the counterexample). -/
theorem c7_truncation_spec (hostEnv : List (String × String)) (language code : String)
    (t : Int) (w : World) (rawOut rawErr : List Nat) (rc : Int)
    (hs : w.stagingError = none)
    (hl : w.launch = .finished rawOut rawErr rc)
    (hc : collectOkB w = true) :
    resultStdout (execute_code hostEnv language code t w) = some (truncDecode rawOut) ∧
      resultStderr (execute_code hostEnv language code t w) = some (truncDecode rawErr) ∧
      (truncDecode rawOut).length ≤ MAX_OUTPUT_BYTES ∧
      (truncDecode rawErr).length ≤ MAX_OUTPUT_BYTES ∧
      ((∀ b ∈ rawOut, b < 128) → MAX_OUTPUT_BYTES ≤ rawOut.length →
        (truncDecode rawOut).length = MAX_OUTPUT_BYTES) := by
  obtain ⟨wd, sErr, launch, dx, ents⟩ := w
  dsimp only at hs hl hc
  subst hs
  subst hl
  obtain ⟨fs, hfs⟩ := collectOkB_exists ⟨wd, none, .finished rawOut rawErr rc, dx, ents⟩ hc
  rw [execute_code_finished_eq]
  rw [finishCollect_eq _ _ _ _ _ _ _ _ _ hfs]
  refine ⟨rfl, rfl, ?_, ?_, ?_⟩
  · unfold truncDecode
    rw [List.length_take]
    exact min_le_left _ _
  · unfold truncDecode
    rw [List.length_take]
    exact min_le_left _ _
  · intro ha hlen
    unfold truncDecode
    rw [utf8DecodeReplace_ascii rawOut ha, List.length_take]
    omega

/-- A world with a short ASCII stdout, for the C7 witness. -/
def wOutC7 : World := ⟨"/tmp/sandbox-o", none, .finished [104, 105, 10] [33] 0, false, []⟩

/-- Witness for C7 at a concrete normal completion. -/
theorem c7_truncation_spec_witness :
    resultStdout (execute_code [] "python" "print(1)" 30 wOutC7) =
        some (truncDecode [104, 105, 10]) ∧
      resultStderr (execute_code [] "python" "print(1)" 30 wOutC7) = some (truncDecode [33]) ∧
      (truncDecode [104, 105, 10]).length ≤ MAX_OUTPUT_BYTES ∧
      (truncDecode [33]).length ≤ MAX_OUTPUT_BYTES ∧
      ((∀ b ∈ [104, 105, 10], b < 128) → MAX_OUTPUT_BYTES ≤ [104, 105, 10].length →
        (truncDecode [104, 105, 10]).length = MAX_OUTPUT_BYTES) :=
  c7_truncation_spec [] "python" "print(1)" 30 wOutC7 [104, 105, 10] [33] 0 rfl rfl (by decide)

/-! ### Claim C8 -/

/-- C8: whenever staging succeeded, the output directory survived and
every passing entry is readable, the result's `files` field is exactly
the specification's list (`specFiles`): the regular immediate children
strictly below 5 MiB, in lexicographic filename order, with base64
data; oversized and non-regular entries are silently omitted.  The
names are pairwise in lexicographic order, and decoding every `data`
field gives back exactly the files' bytes. -/
theorem c8_files_spec (hostEnv : List (String × String)) (language code : String)
    (t : Int) (w : World)
    (hdir : w.outputDirSurvives = true)
    (hs : w.stagingError = none)
    (hread : ∀ e ∈ w.entries, passF e = true → e.content.isSome = true)
    (hbytes : ∀ e ∈ w.entries, ∀ b ∈ e.content.getD [], b < 256) :
    resultFiles (execute_code hostEnv language code t w) = some (specFiles w.entries) ∧
      List.Pairwise (fun f g => lexLeB (strCodes f.name) (strCodes g.name) = true)
        (specFiles w.entries) ∧
      (specFiles w.entries).map (fun f => b64decode f.data) =
        (sortByName (w.entries.filter passF)).map (fun e => e.content) := by
  have hcf : collectFiles true w.entries = .ok (specFiles w.entries) :=
    collectFiles_spec w.entries hread
  have hfs : collectFiles w.outputDirSurvives w.entries = .ok (specFiles w.entries) := by
    rw [hdir]
    exact hcf
  obtain ⟨r, hr, hrfiles, _⟩ := execute_code_ok hostEnv language code t w _ hs hfs
  refine ⟨?_, ?_, ?_⟩
  · unfold resultFiles
    rw [hr]
    dsimp only
    rw [hrfiles]
  · unfold specFiles
    refine List.Pairwise.map mkFileEntry ?_ (sorted_sortByName (w.entries.filter passF))
    intro a b hab
    exact hab
  · unfold specFiles
    rw [List.map_map]
    refine List.map_congr_left ?_
    intro e he
    have hmem : e ∈ w.entries :=
      List.mem_of_mem_filter (mem_sortByName.mp he)
    have hpass : passF e = true :=
      List.of_mem_filter (mem_sortByName.mp he)
    have hsome : e.content.isSome = true := hread e hmem hpass
    have hrt : b64decode (b64encode (e.content.getD [])) = some (e.content.getD []) :=
      b64_roundtrip (e.content.getD []) (hbytes e hmem)
    show b64decode (mkFileEntry e).data = e.content
    unfold mkFileEntry
    dsimp only
    rw [hrt]
    cases hco : e.content with
    | none => simp [hco] at hsome
    | some bs => rfl

/-- Entries for the C8 witness: two readable files named out of order,
one oversized file, and one subdirectory. -/
def entsC8 : List Entry :=
  [⟨"b.txt", true, 2, some [104, 105]⟩, ⟨"a.txt", true, 1, some [65]⟩,
    ⟨"big.bin", true, 6 * 1024 * 1024, some []⟩, ⟨"subdir", false, 0, none⟩]

/-- A world whose output directory holds `entsC8`, for the C8
witness. -/
def wFilesC8 : World := ⟨"/tmp/sandbox-f", none, .finished [] [] 0, true, entsC8⟩

/-- Witness for C8 at a concrete directory listing. -/
theorem c8_files_spec_witness :
    resultFiles (execute_code [] "python" "open(1)" 30 wFilesC8) = some (specFiles entsC8) ∧
      List.Pairwise (fun f g => lexLeB (strCodes f.name) (strCodes g.name) = true)
        (specFiles entsC8) ∧
      (specFiles entsC8).map (fun f => b64decode f.data) =
        (sortByName (entsC8.filter passF)).map (fun e => e.content) :=
  c8_files_spec [] "python" "open(1)" 30 wFilesC8 rfl rfl (by decide) (by decide)
